import Mathlib

/-!
Shallow embedding of the VulkanOverlay renderer core (src/src/render.rs and
src/src/overlay.rs), together with proofs about the polar hit-test engine,
device selection, swap-chain image-count policy and shader bytecode loading.

Floating-point (`f32`) arithmetic of the source is modelled over the real
numbers; the Rust `f32::atan2`, `sqrt`, `floor` become `Complex.arg`,
`Real.sqrt` and `Int.floor`.
-/

namespace VulkanOverlay

/-- Model of the Rust call `y.atan2(x)`: the principal argument of the point
`(x, y)`, in `(-π, π]`, with `atan2 0 0 = 0`, exactly `Complex.arg`. -/
noncomputable def atan2 (y x : ℝ) : ℝ :=
  Complex.arg ((x : ℂ) + (y : ℂ) * Complex.I)

/-- `OverlayContent` from src/src/overlay.rs: visibility flag and the
currently selected radial-menu segment (`None` when no segment). -/
@[ext]
structure OverlayContent where
  visible : Bool
  selected_segment : Option ℤ
deriving DecidableEq, Repr

/-- `update_selection` from src/src/render.rs (lines 467-511): the polar
hit-test.  Takes the normalized mouse coordinates and the current overlay
state; returns the new overlay state and whether a selection-change
notification (a `println!`) was emitted. -/
noncomputable def update_selection (normalized_mouse_x normalized_mouse_y : ℝ)
    (overlay_content : OverlayContent) : OverlayContent × Bool :=
  let coord_x := normalized_mouse_x
  let coord_y := -normalized_mouse_y
  let dist := Real.sqrt (coord_x ^ 2 + coord_y ^ 2)
  let inner_radius : ℝ := 0.08
  let outer_radius : ℝ := 0.25
  if inner_radius ≤ dist then
    let angle0 := atan2 coord_y coord_x
    let angle := if angle0 < 0 then angle0 + 2 * Real.pi else angle0
    let segments : ℤ := 6
    let segment_gap : ℝ := 0.1
    let segment_angle_with_gap := 2 * Real.pi / ((segments : ℤ) : ℝ)
    let segment_index : ℤ := ⌊angle / segment_angle_with_gap⌋
    if overlay_content.selected_segment ≠ some segment_index then
      ({ overlay_content with selected_segment := some segment_index }, true)
    else
      (overlay_content, false)
  else
    if overlay_content.selected_segment.isSome then
      ({ overlay_content with selected_segment := none }, true)
    else
      (overlay_content, false)

/-- Mouse-coordinate normalization from `Renderer::render`
(src/src/render.rs lines 320-334): window-relative cursor position mapped
to `[-1, 1]` device coordinates with Y inverted. -/
noncomputable def normalized_mouse_coords
    (point_x point_y left top right bottom : ℤ) :
    ℝ × ℝ :=
  let mouse_x := point_x - left
  let mouse_y := point_y - top
  let window_width := right - left
  let window_height := bottom - top
  ((mouse_x : ℝ) / (window_width : ℝ) * 2 - 1,
    1 - (mouse_y : ℝ) / (window_height : ℝ) * 2)

/-- Hit-test selection written from the words of the specification (spec.md §4.5
and claim C1): normalize, flip Y, take the distance, and outside the inner
radius select `floor(angle / (2π/6))` with the angle normalized into
`[0, 2π)`.  Used to compare the source hit-test against the spec. -/
noncomputable def spec_hit_test (relX relY width height : ℝ) : Option ℤ :=
  let nx := relX / width * 2 - 1
  let ny := 1 - relY / height * 2
  let cx := nx
  let cy := -ny
  let dist := Real.sqrt (cx ^ 2 + cy ^ 2)
  if 0.08 ≤ dist then
    let angle0 := atan2 cy cx
    let angle := if angle0 < 0 then angle0 + 2 * Real.pi else angle0
    some ⌊angle / (2 * Real.pi / 6)⌋
  else
    none

/-- One queue family of a physical device, reduced to the two capabilities
the source inspects: graphics support and surface-presentation support. -/
structure QueueFamily where
  graphics : Bool
  present : Bool
deriving DecidableEq, Repr

/-- Loop body of `is_device_suitable` (src/src/render.rs lines 539-557):
walks the queue families accumulating `has_graphics` / `has_present`
flags, returning `true` as soon as both flags are set. -/
def is_device_suitable_loop (has_graphics has_present : Bool) :
    List QueueFamily → Bool
  | [] => false
  | qf :: rest =>
    let has_graphics := has_graphics || qf.graphics
    let has_present := has_present || qf.present
    if has_graphics && has_present then true
    else is_device_suitable_loop has_graphics has_present rest

/-- `is_device_suitable` from src/src/render.rs (lines 532-560), with a
physical device abstracted to its list of queue families. -/
def is_device_suitable (queue_families : List QueueFamily) : Bool :=
  is_device_suitable_loop false false queue_families

/-- `pick_physical_device` from src/src/render.rs (lines 515-529): return
the first enumerated device that `is_device_suitable` accepts, else the
error from line 528. -/
def pick_physical_device :
    List (List QueueFamily) → Except String (List QueueFamily)
  | [] => .error "Failed to find a suitable GPU!"
  | d :: rest =>
    if is_device_suitable d then .ok d else pick_physical_device rest

/-- Loop of `find_queue_family_index` carrying the running index. -/
def find_queue_family_index_loop (index : ℕ) :
    List QueueFamily → Except String ℕ
  | [] => .error "Failed to find a suitable queue family."
  | qf :: rest =>
    if qf.graphics && qf.present then .ok index
    else find_queue_family_index_loop (index + 1) rest

/-- `find_queue_family_index` from src/src/render.rs (lines 563-581):
the index of the first queue family supporting both graphics and
presentation, or an error when none does. -/
def find_queue_family_index (queue_families : List QueueFamily) :
    Except String ℕ :=
  find_queue_family_index_loop 0 queue_families

/-- Swap-chain image count selection from `create_swapchain`
(src/src/render.rs lines 683-686): `min_image_count + 1`, lowered to
`max_image_count` when that maximum is nonzero and exceeded. -/
def choose_image_count (min_image_count max_image_count : ℕ) : ℕ :=
  let image_count := min_image_count + 1
  if max_image_count > 0 ∧ image_count > max_image_count then
    max_image_count
  else
    image_count

/-- The Rust call `u32::from_le_bytes [b0, b1, b2, b3]`: little-endian word
assembly, least-significant byte first. -/
def u32_from_le_bytes (b0 b1 b2 b3 : ℕ) : ℕ :=
  b0 + b1 * 256 + b2 * 256 ^ 2 + b3 * 256 ^ 3

/-- `buffer.chunks_exact(4).map(u32::from_le_bytes)` from
`read_spirv_shader`: consecutive exact 4-byte chunks assembled into
little-endian words, any shorter remainder dropped. -/
def chunks4_le : List ℕ → List ℕ
  | b0 :: b1 :: b2 :: b3 :: rest =>
    u32_from_le_bytes b0 b1 b2 b3 :: chunks4_le rest
  | _ => []

/-- `read_spirv_shader` from src/src/render.rs (lines 998-1015), with the
file contents abstracted to its byte list: reject byte lengths that are
not a multiple of 4, else decode little-endian 32-bit words. -/
def read_spirv_shader (buffer : List ℕ) : Except String (List ℕ) :=
  if buffer.length % 4 ≠ 0 then
    .error "Shader bytecode is not properly aligned."
  else
    .ok (chunks4_le buffer)

/-- The new overlay selection computed by `update_selection`, in closed
form: `none` inside the inner radius, otherwise the floor of the
normalized angle divided by the segment angle. -/
lemma update_selection_selected_eq (nx ny : ℝ) (oc : OverlayContent) :
    ((update_selection nx ny oc).1).selected_segment =
      if 0.08 ≤ Real.sqrt (nx ^ 2 + (-ny) ^ 2) then
        some ⌊(if atan2 (-ny) nx < 0 then atan2 (-ny) nx + 2 * Real.pi
               else atan2 (-ny) nx) / (2 * Real.pi / 6)⌋
      else none := by
  simp only [update_selection, Int.cast_ofNat]
  by_cases hd : (0.08 : ℝ) ≤ Real.sqrt (nx ^ 2 + (-ny) ^ 2)
  · simp only [if_pos hd]
    by_cases hs : oc.selected_segment ≠
        some ⌊(if atan2 (-ny) nx < 0 then atan2 (-ny) nx + 2 * Real.pi
               else atan2 (-ny) nx) / (2 * Real.pi / 6)⌋
    · simp only [if_pos hs]
    · simp only [if_neg hs]
      simpa using not_not.mp hs
  · simp only [if_neg hd]
    by_cases hsome : oc.selected_segment.isSome = true
    · simp only [if_pos hsome]
    · simp only [if_neg hsome]
      simpa using hsome

/-- `update_selection` emits its notification (`println!`) exactly when
the stored selection changes. -/
lemma update_selection_prints_iff (nx ny : ℝ) (oc : OverlayContent) :
    (update_selection nx ny oc).2 = true ↔
      ((update_selection nx ny oc).1).selected_segment ≠
        oc.selected_segment := by
  simp only [update_selection, Int.cast_ofNat]
  by_cases hd : (0.08 : ℝ) ≤ Real.sqrt (nx ^ 2 + (-ny) ^ 2)
  · simp only [if_pos hd]
    by_cases hs : oc.selected_segment ≠
        some ⌊(if atan2 (-ny) nx < 0 then atan2 (-ny) nx + 2 * Real.pi
               else atan2 (-ny) nx) / (2 * Real.pi / 6)⌋
    · simp only [if_pos hs]
      simpa using Ne.symm hs
    · simp only [if_neg hs]
      push_neg at hs
      simp [hs]
  · simp only [if_neg hd]
    by_cases hsome : oc.selected_segment.isSome = true
    · simp only [if_pos hsome]
      obtain ⟨x, hx⟩ := Option.isSome_iff_exists.mp hsome
      simp [hx]
    · simp only [if_neg hsome]
      simp

/-- Calling `update_selection` again with the same inputs on its own
output state changes nothing and emits no notification. -/
lemma update_selection_stable (nx ny : ℝ) (oc : OverlayContent) :
    update_selection nx ny ((update_selection nx ny oc).1) =
      ((update_selection nx ny oc).1, false) := by
  have hX := update_selection_selected_eq nx ny oc
  set X := (update_selection nx ny oc).1
  simp only [update_selection, Int.cast_ofNat]
  by_cases hd : (0.08 : ℝ) ≤ Real.sqrt (nx ^ 2 + (-ny) ^ 2)
  · rw [if_pos hd] at hX
    rw [if_pos hd, if_neg (by simp [hX])]
  · rw [if_neg hd] at hX
    rw [if_neg hd, if_neg (by simp [hX])]

/-- The integer rectangle arithmetic of the source pushed through the casts. -/
lemma normalized_mouse_coords_eq (px py l t r b : ℤ) :
    normalized_mouse_coords px py l t r b =
      (((px : ℝ) - l) / ((r : ℝ) - l) * 2 - 1,
        1 - ((py : ℝ) - t) / ((b : ℝ) - t) * 2) := by
  simp only [normalized_mouse_coords]
  push_cast
  rfl

/-- The angle normalized by the `+ 2π` branch lies in `[0, 2π)`. -/
lemma norm_angle_mem (y x : ℝ) :
    0 ≤ (if atan2 y x < 0 then atan2 y x + 2 * Real.pi else atan2 y x) ∧
      (if atan2 y x < 0 then atan2 y x + 2 * Real.pi else atan2 y x) <
        2 * Real.pi := by
  have hle : atan2 y x ≤ Real.pi := Complex.arg_le_pi _
  have hgt : -Real.pi < atan2 y x := Complex.neg_pi_lt_arg _
  have hpi := Real.pi_pos
  split_ifs with h
  · constructor <;> linarith
  · push_neg at h
    constructor <;> linarith

/-- `atan2` only depends on the direction: positive scaling is absorbed. -/
lemma atan2_scale (d y x : ℝ) (hd : 0 < d) :
    atan2 (d * y) (d * x) = atan2 y x := by
  unfold atan2
  rw [show ((d * x : ℝ) : ℂ) + ((d * y : ℝ) : ℂ) * Complex.I =
        ((d : ℝ) : ℂ) * (((x : ℝ) : ℂ) + ((y : ℝ) : ℂ) * Complex.I) by
      push_cast; ring]
  exact Complex.arg_real_mul _ hd

/-- For a direction given by an angle `θ ∈ [0, 2π)`, the normalized
`atan2` of `(cos θ, sin θ)` recovers `θ` itself. -/
lemma norm_angle_cos_sin (θ : ℝ) (h0 : 0 ≤ θ) (h2 : θ < 2 * Real.pi) :
    (if atan2 (Real.sin θ) (Real.cos θ) < 0
     then atan2 (Real.sin θ) (Real.cos θ) + 2 * Real.pi
     else atan2 (Real.sin θ) (Real.cos θ)) = θ := by
  have hpi := Real.pi_pos
  rcases le_or_lt θ Real.pi with hle | hgt
  · have harg : atan2 (Real.sin θ) (Real.cos θ) = θ := by
      unfold atan2
      rw [Complex.ofReal_cos, Complex.ofReal_sin]
      exact Complex.arg_cos_add_sin_mul_I ⟨by linarith, hle⟩
    rw [harg, if_neg (by linarith)]
  · have harg : atan2 (Real.sin θ) (Real.cos θ) = θ - 2 * Real.pi := by
      unfold atan2
      rw [← Real.cos_sub_two_pi θ, ← Real.sin_sub_two_pi θ,
        Complex.ofReal_cos, Complex.ofReal_sin]
      exact Complex.arg_cos_add_sin_mul_I ⟨by linarith, by linarith⟩
    rw [harg, if_pos (by linarith)]
    ring

/-- The hit-test never changes the visibility flag. -/
lemma update_selection_visible (nx ny : ℝ) (oc : OverlayContent) :
    ((update_selection nx ny oc).1).visible = oc.visible := by
  simp only [update_selection, Int.cast_ofNat]
  split_ifs <;> rfl

/-- The overlay state is left untouched exactly when no notification is
emitted. -/
lemma update_selection_state_eq_iff (nx ny : ℝ) (oc : OverlayContent) :
    (update_selection nx ny oc).1 = oc ↔
      (update_selection nx ny oc).2 = false := by
  constructor
  · intro h
    by_contra hne
    have h2 : (update_selection nx ny oc).2 = true := by
      cases hb : (update_selection nx ny oc).2
      · exact absurd hb hne
      · rfl
    exact (update_selection_prints_iff nx ny oc).mp h2 (by rw [h])
  · intro h
    have hsel : ((update_selection nx ny oc).1).selected_segment =
        oc.selected_segment := by
      by_contra hne
      have := (update_selection_prints_iff nx ny oc).mpr hne
      rw [h] at this
      exact Bool.false_ne_true this
    exact OverlayContent.ext (update_selection_visible nx ny oc) hsel

/-- The value of atan2 at the concrete example point (0, -1/2). -/
lemma atan2_neg_half_zero : atan2 (-(1 / 2 : ℝ)) 0 = -(Real.pi / 2) := by
  unfold atan2
  rw [Complex.ofReal_zero, Complex.ofReal_neg]
  rw [show (0 : ℂ) + -((1 / 2 : ℝ) : ℂ) * Complex.I =
        ((1 / 2 : ℝ) : ℂ) * (-Complex.I) by ring]
  rw [Complex.arg_real_mul (-Complex.I) (by norm_num : (0 : ℝ) < 1 / 2),
    Complex.arg_neg_I]

/-- The spec-side hit-test at the worked example of the specification:
window 800x600, window-relative cursor (400, 150), segment 4. -/
lemma spec_hit_test_example : spec_hit_test 400 150 800 600 = some 4 := by
  have e1 : (400 : ℝ) / 800 * 2 - 1 = 0 := by norm_num
  have e2 : 1 - (150 : ℝ) / 600 * 2 = 1 / 2 := by norm_num
  simp only [spec_hit_test, e1, e2]
  have e3 : Real.sqrt ((0 : ℝ) ^ 2 + (-(1 / 2 : ℝ)) ^ 2) = 1 / 2 := by
    rw [show ((0 : ℝ) ^ 2 + (-(1 / 2 : ℝ)) ^ 2) = (1 / 2 : ℝ) ^ 2 by norm_num]
    exact Real.sqrt_sq (by norm_num)
  rw [e3, if_pos (by norm_num : (0.08 : ℝ) ≤ 1 / 2), atan2_neg_half_zero,
    if_pos (by linarith [Real.pi_pos] : -(Real.pi / 2) < 0)]
  have e4 : (-(Real.pi / 2) + 2 * Real.pi) / (2 * Real.pi / 6) = 9 / 2 := by
    rw [div_eq_iff (by positivity : (2 * Real.pi / 6) ≠ 0)]
    ring
  have e5 : ⌊(9 / 2 : ℝ)⌋ = (4 : ℤ) := by
    rw [Int.floor_eq_iff]
    norm_num
  rw [e4, e5]

/-- C1: for every cursor position and window rectangle the hit-test
normalizes to nx = (relX/width)*2 - 1, ny = 1 - (relY/height)*2, flips to
(cx, cy) = (nx, -ny), and outside the inner radius 0.08 selects
floor(angle / (2*pi/6)) with the atan2 angle normalized into [0, 2*pi) —
exactly the formula spec_hit_test, written from the spec; in particular
for window size 800x600 and window-relative cursor (400, 150) the
selected segment is 4. -/
theorem hit_test_matches_spec_formula :
    (∀ (px py l t r b : ℤ) (oc : OverlayContent),
      ((update_selection (normalized_mouse_coords px py l t r b).1
          (normalized_mouse_coords px py l t r b).2 oc).1).selected_segment =
        spec_hit_test ((px : ℝ) - l) ((py : ℝ) - t) ((r : ℝ) - l)
          ((b : ℝ) - t)) ∧
    (∀ oc : OverlayContent,
      ((update_selection (normalized_mouse_coords 400 150 0 0 800 600).1
          (normalized_mouse_coords 400 150 0 0 800 600).2 oc).1).selected_segment =
        some 4) := by
  have key : ∀ (px py l t r b : ℤ) (oc : OverlayContent),
      ((update_selection (normalized_mouse_coords px py l t r b).1
          (normalized_mouse_coords px py l t r b).2 oc).1).selected_segment =
        spec_hit_test ((px : ℝ) - l) ((py : ℝ) - t) ((r : ℝ) - l)
          ((b : ℝ) - t) := by
    intro px py l t r b oc
    rw [normalized_mouse_coords_eq]
    rw [update_selection_selected_eq]
    simp only [spec_hit_test]
  refine ⟨key, fun oc => ?_⟩
  rw [key 400 150 0 0 800 600 oc]
  norm_num
  exact spec_hit_test_example

/-- C2: whenever the distance from center is below the inner radius 0.08,
the hit-test selects no segment, regardless of angle. -/
theorem inner_radius_no_selection (nx ny : ℝ) (oc : OverlayContent)
    (h : Real.sqrt (nx ^ 2 + (-ny) ^ 2) < 0.08) :
    ((update_selection nx ny oc).1).selected_segment = none := by
  rw [update_selection_selected_eq, if_neg (not_le.mpr h)]

/-- Witness for C2 at the window center: (nx, ny) = (0, 0). -/
theorem inner_radius_no_selection_witness :
    ((update_selection 0 0 ⟨false, some 3⟩).1).selected_segment = none :=
  inner_radius_no_selection 0 0 ⟨false, some 3⟩ (by
    rw [show ((0 : ℝ) ^ 2 + (-(0 : ℝ)) ^ 2) = 0 by norm_num, Real.sqrt_zero]
    norm_num)

/-- C4: outside the inner radius the selected segment index is always an
integer in [0, 6). -/
theorem segment_index_in_range (nx ny : ℝ) (oc : OverlayContent)
    (h : 0.08 ≤ Real.sqrt (nx ^ 2 + (-ny) ^ 2)) :
    ∃ k : ℤ, ((update_selection nx ny oc).1).selected_segment = some k ∧
      0 ≤ k ∧ k < 6 := by
  rw [update_selection_selected_eq, if_pos h]
  have hseg : (0 : ℝ) < 2 * Real.pi / 6 := by positivity
  refine ⟨_, rfl, ?_, ?_⟩
  · exact Int.floor_nonneg.mpr
      (div_nonneg (norm_angle_mem (-ny) nx).1 hseg.le)
  · refine Int.floor_lt.mpr ?_
    rw [div_lt_iff₀ hseg]
    have h2 := (norm_angle_mem (-ny) nx).2
    push_cast
    linarith

/-- Witness for C4 at (nx, ny) = (0, 1). -/
theorem segment_index_in_range_witness :
    ∃ k : ℤ, ((update_selection 0 1 ⟨false, none⟩).1).selected_segment =
      some k ∧ 0 ≤ k ∧ k < 6 :=
  segment_index_in_range 0 1 ⟨false, none⟩ (by
    rw [show ((0 : ℝ) ^ 2 + (-(1 : ℝ)) ^ 2) = 1 by norm_num, Real.sqrt_one]
    norm_num)

/-- C10: outside the inner radius a segment is always selected — the
angular gap parameter (segment_gap = 0.1, read at render.rs line 493 but
never used) plays no role: the index is the floor of the normalized angle
over the full segment angle 2*pi/6, so a cursor inside a visual gap still
selects the segment containing its angle. -/
theorem hit_test_ignores_segment_gap (nx ny : ℝ) (oc : OverlayContent)
    (h : 0.08 ≤ Real.sqrt (nx ^ 2 + (-ny) ^ 2)) :
    ((update_selection nx ny oc).1).selected_segment =
      some ⌊(if atan2 (-ny) nx < 0 then atan2 (-ny) nx + 2 * Real.pi
             else atan2 (-ny) nx) / (2 * Real.pi / 6)⌋ := by
  rw [update_selection_selected_eq, if_pos h]

/-- Witness for C10 at (nx, ny) = (1, 0). -/
theorem hit_test_ignores_segment_gap_witness :
    ((update_selection 1 0 ⟨false, none⟩).1).selected_segment =
      some ⌊(if atan2 (-(0 : ℝ)) 1 < 0 then atan2 (-(0 : ℝ)) 1 + 2 * Real.pi
             else atan2 (-(0 : ℝ)) 1) / (2 * Real.pi / 6)⌋ :=
  hit_test_ignores_segment_gap 1 0 ⟨false, none⟩ (by
    rw [show ((1 : ℝ) ^ 2 + (-(0 : ℝ)) ^ 2) = 1 by norm_num, Real.sqrt_one]
    norm_num)

/-- C6: the selected segment only depends on the direction of the cursor,
not on its distance from center, once outside the inner radius: two
points on the same ray at any distances at least 0.08 select the same
segment, with no outer-radius cutoff. -/
theorem selection_distance_invariant (θ d1 d2 : ℝ)
    (h1 : 0.08 ≤ d1) (h2 : 0.08 ≤ d2) (oc1 oc2 : OverlayContent) :
    ((update_selection (d1 * Real.cos θ) (-(d1 * Real.sin θ))
        oc1).1).selected_segment =
      ((update_selection (d2 * Real.cos θ) (-(d2 * Real.sin θ))
          oc2).1).selected_segment := by
  have key : ∀ d : ℝ, 0.08 ≤ d → ∀ oc : OverlayContent,
      ((update_selection (d * Real.cos θ) (-(d * Real.sin θ))
          oc).1).selected_segment =
        some ⌊(if atan2 (Real.sin θ) (Real.cos θ) < 0
               then atan2 (Real.sin θ) (Real.cos θ) + 2 * Real.pi
               else atan2 (Real.sin θ) (Real.cos θ)) / (2 * Real.pi / 6)⌋ := by
    intro d hd oc
    have hdpos : (0 : ℝ) < d := lt_of_lt_of_le (by norm_num) hd
    have hsqrt : Real.sqrt ((d * Real.cos θ) ^ 2 +
        (-(-(d * Real.sin θ))) ^ 2) = d := by
      rw [show (d * Real.cos θ) ^ 2 + (-(-(d * Real.sin θ))) ^ 2 =
            d ^ 2 * (Real.sin θ ^ 2 + Real.cos θ ^ 2) by ring,
        Real.sin_sq_add_cos_sq, mul_one, Real.sqrt_sq hdpos.le]
    rw [update_selection_selected_eq, hsqrt, if_pos hd,
      neg_neg (d * Real.sin θ), atan2_scale d _ _ hdpos]
  rw [key d1 h1 oc1, key d2 h2 oc2]

/-- Witness for C6 along the positive x-axis at distances 1/2 and 50. -/
theorem selection_distance_invariant_witness :
    ((update_selection ((1 / 2 : ℝ) * Real.cos 0)
        (-((1 / 2 : ℝ) * Real.sin 0)) ⟨false, none⟩).1).selected_segment =
      ((update_selection ((50 : ℝ) * Real.cos 0)
          (-((50 : ℝ) * Real.sin 0)) ⟨false, none⟩).1).selected_segment :=
  selection_distance_invariant 0 (1 / 2) 50 (by norm_num) (by norm_num)
    ⟨false, none⟩ ⟨false, none⟩

/-- C5 counterexample: the point (cx, cy) = (1/2, sqrt(3)/2) lies exactly
on the boundary angle pi/3 between segments 0 and 1, at distance 1 from
center; the hit-test resolves it to segment 1 — the higher of the two
adjacent segment indices — not to the lower index 0 as the claim
states. -/
theorem boundary_resolves_counterexample :
    ((update_selection (1 / 2 : ℝ) (-(Real.sqrt 3 / 2))
        ⟨false, none⟩).1).selected_segment ≠ some 0 ∧
    ((update_selection (1 / 2 : ℝ) (-(Real.sqrt 3 / 2))
        ⟨false, none⟩).1).selected_segment = some 1 := by
  have hpi := Real.pi_pos
  have hdist : Real.sqrt ((1 / 2 : ℝ) ^ 2 +
      (-(-(Real.sqrt 3 / 2))) ^ 2) = 1 := by
    rw [show ((1 / 2 : ℝ) ^ 2 + (-(-(Real.sqrt 3 / 2))) ^ 2) =
          1 / 4 + Real.sqrt 3 ^ 2 / 4 by ring,
      Real.sq_sqrt (by norm_num : (0 : ℝ) ≤ 3)]
    rw [show (1 / 4 + (3 : ℝ) / 4) = 1 by norm_num, Real.sqrt_one]
  have hatan : atan2 (Real.sqrt 3 / 2) (1 / 2 : ℝ) = Real.pi / 3 := by
    unfold atan2
    have : ((1 / 2 : ℝ) : ℂ) + ((Real.sqrt 3 / 2 : ℝ) : ℂ) * Complex.I =
        Complex.cos ((Real.pi / 3 : ℝ) : ℂ) +
          Complex.sin ((Real.pi / 3 : ℝ) : ℂ) * Complex.I := by
      rw [← Complex.ofReal_cos, ← Complex.ofReal_sin,
        Real.cos_pi_div_three, Real.sin_pi_div_three]
    rw [this]
    exact Complex.arg_cos_add_sin_mul_I ⟨by linarith, by linarith⟩
  rw [update_selection_selected_eq, hdist,
    if_pos (by norm_num : (0.08 : ℝ) ≤ 1), neg_neg (Real.sqrt 3 / 2), hatan,
    if_neg (not_lt.mpr (by positivity : (0 : ℝ) ≤ Real.pi / 3))]
  have hfloor : ⌊(Real.pi / 3) / (2 * Real.pi / 6)⌋ = (1 : ℤ) := by
    rw [show (Real.pi / 3) / (2 * Real.pi / 6) = 1 by
      rw [div_eq_iff (by positivity : (2 * Real.pi / 6) ≠ 0)]; ring]
    exact Int.floor_one
  rw [hfloor]
  exact ⟨by simp, rfl⟩

/-- C5 amended: a point exactly on the segment-boundary angle
k * (2*pi/6), outside the inner radius, resolves deterministically by the
floor rule to segment k — the segment whose angular span starts at that
boundary, i.e. the higher of the two adjacent indices (except at angle 0,
where the wrap makes it the lower index 0). -/
theorem boundary_resolves_to_starting_segment (k : ℤ) (d : ℝ)
    (hk0 : 0 ≤ k) (hk6 : k < 6) (hd : 0.08 ≤ d) (oc : OverlayContent) :
    ((update_selection (d * Real.cos ((k : ℝ) * (2 * Real.pi / 6)))
        (-(d * Real.sin ((k : ℝ) * (2 * Real.pi / 6))))
        oc).1).selected_segment = some k := by
  have hdpos : (0 : ℝ) < d := lt_of_lt_of_le (by norm_num) hd
  set θ := (k : ℝ) * (2 * Real.pi / 6) with hθ
  have hθ0 : 0 ≤ θ := by
    have hk : (0 : ℝ) ≤ (k : ℝ) := by exact_mod_cast hk0
    exact mul_nonneg hk (by positivity)
  have hθ2 : θ < 2 * Real.pi := by
    have hk : (k : ℝ) < 6 := by exact_mod_cast hk6
    calc θ < 6 * (2 * Real.pi / 6) :=
          mul_lt_mul_of_pos_right hk (by positivity)
    _ = 2 * Real.pi := by ring
  have hsqrt : Real.sqrt ((d * Real.cos θ) ^ 2 +
      (-(-(d * Real.sin θ))) ^ 2) = d := by
    rw [show (d * Real.cos θ) ^ 2 + (-(-(d * Real.sin θ))) ^ 2 =
          d ^ 2 * (Real.sin θ ^ 2 + Real.cos θ ^ 2) by ring,
      Real.sin_sq_add_cos_sq, mul_one, Real.sqrt_sq hdpos.le]
  rw [update_selection_selected_eq, hsqrt, if_pos hd,
    neg_neg (d * Real.sin θ), atan2_scale d _ _ hdpos,
    norm_angle_cos_sin θ hθ0 hθ2]
  have : θ / (2 * Real.pi / 6) = (k : ℝ) :=
    mul_div_cancel_right₀ _ (by positivity)
  rw [this, Int.floor_intCast]

/-- Witness for the amended C5 at k = 1, d = 1. -/
theorem boundary_resolves_witness :
    ((update_selection ((1 : ℝ) * Real.cos (((1 : ℤ) : ℝ) * (2 * Real.pi / 6)))
        (-((1 : ℝ) * Real.sin (((1 : ℤ) : ℝ) * (2 * Real.pi / 6))))
        ⟨false, none⟩).1).selected_segment = some 1 :=
  boundary_resolves_to_starting_segment 1 1 (by norm_num) (by norm_num)
    (by norm_num) ⟨false, none⟩

/-- C8: the hit-test emits its selection-change notification exactly when
the stored selection changes (including transitions to and from none),
rewrites the overlay state exactly in that case, and a second call with
the same inputs on the resulting state changes nothing and emits no
further notification. -/
theorem selection_change_notified_once (nx ny : ℝ) (oc : OverlayContent) :
    ((update_selection nx ny oc).2 = true ↔
      ((update_selection nx ny oc).1).selected_segment ≠
        oc.selected_segment) ∧
    ((update_selection nx ny oc).1 = oc ↔
      (update_selection nx ny oc).2 = false) ∧
    update_selection nx ny ((update_selection nx ny oc).1) =
      ((update_selection nx ny oc).1, false) :=
  ⟨update_selection_prints_iff nx ny oc,
    update_selection_state_eq_iff nx ny oc,
    update_selection_stable nx ny oc⟩

/-- C3 (code bug exhibit): a device whose graphics support and
presentation support live in two different queue families — no single
family has both.  In the source, is_device_suitable accumulates the two
flags across distinct families, so pick_physical_device accepts this
device (and thereby shadows any genuinely suitable later device), while
the subsequent find_queue_family_index on it fails; the selection
rule of the spec (a single queue family supporting both) rejects it. -/
theorem pick_physical_device_split_family_bug :
    is_device_suitable [⟨true, false⟩, ⟨false, true⟩] = true ∧
    pick_physical_device [[⟨true, false⟩, ⟨false, true⟩]] =
      .ok [⟨true, false⟩, ⟨false, true⟩] ∧
    pick_physical_device
        [[⟨true, false⟩, ⟨false, true⟩], [⟨true, true⟩]] =
      .ok [⟨true, false⟩, ⟨false, true⟩] ∧
    find_queue_family_index [⟨true, false⟩, ⟨false, true⟩] =
      .error "Failed to find a suitable queue family." ∧
    (∀ qf ∈ ([⟨true, false⟩, ⟨false, true⟩] : List QueueFamily),
      ¬(qf.graphics = true ∧ qf.present = true)) :=
  ⟨rfl, rfl, rfl, rfl, by decide⟩

/-- Length of the exact-4-chunks decomposition. -/
lemma chunks4_le_length : ∀ l : List ℕ, (chunks4_le l).length = l.length / 4
  | [] => rfl
  | [_] => by simp [chunks4_le]
  | [_, _] => by simp [chunks4_le]
  | [_, _, _] => by simp [chunks4_le]
  | _ :: _ :: _ :: _ :: rest => by
    simp only [chunks4_le, List.length_cons, chunks4_le_length rest]
    omega

/-- Word i of the exact-4-chunks decomposition is assembled from bytes
4i..4i+3, least-significant byte first. -/
lemma chunks4_le_getD : ∀ (l : List ℕ) (i : ℕ), i < (chunks4_le l).length →
    (chunks4_le l).getD i 0 =
      u32_from_le_bytes (l.getD (4 * i) 0) (l.getD (4 * i + 1) 0)
        (l.getD (4 * i + 2) 0) (l.getD (4 * i + 3) 0)
  | [], _, h => by simp [chunks4_le] at h
  | [_], _, h => by simp [chunks4_le] at h
  | [_, _], _, h => by simp [chunks4_le] at h
  | [_, _, _], _, h => by simp [chunks4_le] at h
  | b0 :: b1 :: b2 :: b3 :: rest, 0, _ => by simp [chunks4_le]
  | b0 :: b1 :: b2 :: b3 :: rest, i + 1, h => by
    have hlt : i < (chunks4_le rest).length := by
      simp only [chunks4_le, List.length_cons] at h
      omega
    have ih := chunks4_le_getD rest i hlt
    have g0 : (b0 :: b1 :: b2 :: b3 :: rest).getD (4 * (i + 1)) 0 =
        rest.getD (4 * i) 0 := by
      rw [show 4 * (i + 1) = 4 * i + 1 + 1 + 1 + 1 by ring]
      simp [List.getD_cons_succ]
    have g1 : (b0 :: b1 :: b2 :: b3 :: rest).getD (4 * (i + 1) + 1) 0 =
        rest.getD (4 * i + 1) 0 := by
      rw [show 4 * (i + 1) + 1 = 4 * i + 1 + 1 + 1 + 1 + 1 by ring]
      simp [List.getD_cons_succ]
    have g2 : (b0 :: b1 :: b2 :: b3 :: rest).getD (4 * (i + 1) + 2) 0 =
        rest.getD (4 * i + 2) 0 := by
      rw [show 4 * (i + 1) + 2 = 4 * i + 2 + 1 + 1 + 1 + 1 by ring]
      simp [List.getD_cons_succ]
    have g3 : (b0 :: b1 :: b2 :: b3 :: rest).getD (4 * (i + 1) + 3) 0 =
        rest.getD (4 * i + 3) 0 := by
      rw [show 4 * (i + 1) + 3 = 4 * i + 3 + 1 + 1 + 1 + 1 by ring]
      simp [List.getD_cons_succ]
    simp only [chunks4_le]
    rw [List.getD_cons_succ, ih, g0, g1, g2, g3]

/-- C7: shader bytecode loading fails exactly when the byte length is not
a multiple of 4, and on success returns the little-endian 4-byte words of
the input, word i assembled from bytes 4i..4i+3 with the
least-significant byte first. -/
theorem read_spirv_shader_words (buffer : List ℕ) :
    (read_spirv_shader buffer =
        .error "Shader bytecode is not properly aligned." ↔
      buffer.length % 4 ≠ 0) ∧
    (∀ words, read_spirv_shader buffer = .ok words →
      words.length = buffer.length / 4 ∧
      ∀ i, i < words.length →
        words.getD i 0 = u32_from_le_bytes (buffer.getD (4 * i) 0)
          (buffer.getD (4 * i + 1) 0) (buffer.getD (4 * i + 2) 0)
          (buffer.getD (4 * i + 3) 0)) := by
  constructor
  · by_cases h : buffer.length % 4 = 0
    · simp [read_spirv_shader, h]
    · simp [read_spirv_shader, h]
  · intro words hw
    by_cases h : buffer.length % 4 = 0
    · simp only [read_spirv_shader, h, ne_eq, not_true_eq_false,
        if_false, not_false_eq_true, if_true, Except.ok.injEq] at hw
      subst hw
      exact ⟨chunks4_le_length buffer, fun i hi => chunks4_le_getD buffer i hi⟩
    · simp [read_spirv_shader, h] at hw

/-- Witness for C7: a 3-byte input is rejected; the 8-byte input
[1,0,0,0, 0,1,0,0] decodes to the two words [1, 256]. -/
theorem read_spirv_shader_words_witness :
    read_spirv_shader [1, 2, 3] =
      .error "Shader bytecode is not properly aligned." ∧
    ([1, 256] : List ℕ).length =
      ([1, 0, 0, 0, 0, 1, 0, 0] : List ℕ).length / 4 :=
  ⟨(read_spirv_shader_words [1, 2, 3]).1.mpr (by decide),
    ((read_spirv_shader_words [1, 0, 0, 0, 0, 1, 0, 0]).2 [1, 256] rfl).1⟩

/-- C9: the requested swap-chain image count is min_image_count + 1,
clamped down to the reported maximum when that maximum is nonzero; a
maximum of 0 means no maximum and no clamping occurs. -/
theorem choose_image_count_clamped (mn mx : ℕ) :
    choose_image_count mn mx =
      if mx = 0 then mn + 1 else min (mn + 1) mx := by
  simp only [choose_image_count]
  split_ifs <;> omega

end VulkanOverlay
